import Mathlib

/-!
Shallow embedding of the release-resolution and binary-identification engine
of the generate-manifest action (sources: src/addon.ts, src/standalone.ts,
src/github.ts, src/main.ts).

External effects (HTTP fetches, the SHA-256 hash, the PE parser, the zip
decompressor, the winedump export check, and the GitHub REST endpoints) are
modelled as fields of an explicit environment `Env`; each TypeScript function
becomes a Lean function over `Env` returning `Except String` where the source
can throw. Byte buffers are modelled as `List Nat`.
-/

set_option autoImplicit false

namespace GenManifest

/-- Version: ordered 4-tuple of components, as in the schema tuple
`[number, number, number, number]`. Components produced by `parseVersion`
are 16-bit values. -/
structure Version where
  c0 : Nat
  c1 : Nat
  c2 : Nat
  c3 : Nat
deriving DecidableEq, Repr

/-- Release record, mirroring the schema object
`{id, name, version, version_str, download_url, asset_index?}`. -/
structure Release where
  id : String
  name : String
  version : Version
  version_str : String
  download_url : String
  asset_index : Option Nat := none
deriving DecidableEq, Repr

/-- ReleaseInfo: per-addon-per-source pair of optional releases. -/
structure ReleaseInfo where
  release : Option Release := none
  prerelease : Option Release := none
deriving DecidableEq, Repr

/-- isGreater from src/addon.ts: compare components 0..3 in order, return at
the first differing component whether the left component exceeds the right,
false when all four are equal. -/
def isGreater (a b : Version) : Bool :=
  if a.c0 ≠ b.c0 then decide (a.c0 > b.c0)
  else if a.c1 ≠ b.c1 then decide (a.c1 > b.c1)
  else if a.c2 ≠ b.c2 then decide (a.c2 > b.c2)
  else if a.c3 ≠ b.c3 then decide (a.c3 > b.c3)
  else false

/-- Decode a 32-bit most-significant/least-significant word pair into the four
16-bit components, as `[(ms >> 16) & 0xffff, ms & 0xffff, (ls >> 16) & 0xffff,
ls & 0xffff]` does in src/addon.ts (for word values below 2^32 the JS shift and
mask compute exactly these quotients and remainders). -/
def decodeTuple (ms ls : Nat) : Version :=
  { c0 := ms / 65536 % 65536
    c1 := ms % 65536
    c2 := ls / 65536 % 65536
    c3 := ls % 65536 }

/-- parseVersion from src/addon.ts: 0x00000000/0x00000000 is not a valid
version; otherwise combine the two words into a 4-component version. -/
def parseVersion (ms ls : Nat) : Option Version :=
  if ms = 0 ∧ ls = 0 then none
  else some (decodeTuple ms ls)

/-- The all-zero version tuple. -/
def zeroVersion : Version := { c0 := 0, c1 := 0, c2 := 0, c3 := 0 }

/-- Dotted rendering of a version tuple, as `version.join(".")`. -/
def renderVersion (v : Version) : String :=
  toString v.c0 ++ "." ++ toString v.c1 ++ "." ++ toString v.c2 ++ "." ++ toString v.c3

/-- Result of an HTTP fetch: the status code, the response body bytes, and the
final (post-redirect) URL used for file-suffix dispatch. -/
structure FetchResult where
  status : Nat
  body : List Nat
  url : String
deriving DecidableEq, Repr

/-- Response.ok in the fetch API: status in the range 200..299. -/
def fetchOk (r : FetchResult) : Bool :=
  decide (200 ≤ r.status) && decide (r.status < 300)

/-- The fixed file info struct of a PE version resource: the two 32-bit word
pairs for file version and product version (each word below 2^32). -/
structure FixedFileInfo where
  dwFileVersionMS : Nat
  dwFileVersionLS : Nat
  dwProductVersionMS : Nat
  dwProductVersionLS : Nat
deriving DecidableEq, Repr

/-- One version-info node of a parsed PE file: the optional fixed file info and
the optional string file info (a list of string tables, each a key-value map
modelled as an association list in object-key order). -/
structure VersionInfo where
  fixedFileInfo : Option FixedFileInfo
  stringFileInfo : Option (List (List (String × String)))
deriving DecidableEq, Repr

/-- The data the PE parser exposes to createReleaseFromDll:
`getVersionInfoResources()` returns either nothing or a two-level nesting of
version-info nodes (Object.values at each level, in key order). -/
structure DllData where
  versionInfoResources : Option (List (List VersionInfo))
deriving DecidableEq, Repr

/-- A GitHub release asset: numeric id, file name, download URL. -/
structure GithubAsset where
  id : Nat
  name : String
  browser_download_url : String
deriving DecidableEq, Repr

/-- A GitHub release entry as returned by the list/latest endpoints. -/
structure GithubRelease where
  id : Nat
  prerelease : Bool
  draft : Bool
  assets : List GithubAsset
deriving DecidableEq, Repr

/-- A repository identifier, as produced by parseRepository. -/
structure Repository where
  owner : String
  repo : String
deriving DecidableEq, Repr

/-- The environment of external effects. HTTP fetches, the GitHub REST calls
and the asset download return `Except String` so that network failures,
timeouts and parser exceptions are modelled as thrown errors; the winedump
export check is a pure predicate on the file bytes (its own invocation
failures are already collapsed to `false` in the source). -/
structure Env where
  fetch : String → Except String FetchResult
  sha256 : List Nat → String
  parseDll : List Nat → Except String DllData
  unzip : List Nat → Except String (List (String × List Nat))
  checkDllExports : List Nat → Bool
  listReleases : Repository → Except String (List GithubRelease)
  getLatestRelease : Repository → Except String GithubRelease
  getReleaseAsset : Repository → Nat → Except String (List Nat)

/-- The endsWith test of JS strings, computed on the character lists (the
kernel-evaluable equivalent of String.endsWith). -/
def strEndsWith (s post : String) : Bool :=
  post.data.isSuffixOf s.data

/-- Lookup in a string table object: first entry with the given key. -/
def lookupString (stringInfo : List (String × String)) (key : String) : Option String :=
  (stringInfo.find? (fun kv => kv.1 == key)).map (fun kv => kv.2)

/-- createReleaseFromDll from src/addon.ts: parse the PE file, walk the
version-info resource nesting (each absence is a distinct hard failure), pick
the file-version tuple if it is valid, falling back to the product-version
tuple, fail if neither is valid; then read the first string table, take
ProductName falling back to FileDescription for the name (absence is a hard
failure), and FileVersion falling back to ProductVersion falling back to the
dotted version tuple for the version string. -/
def createReleaseFromDll (env : Env) (fileBuffer : List Nat) (id downloadUrl : String) :
    Except String Release :=
  match env.parseDll fileBuffer with
  | .error e => .error e
  | .ok dll =>
    match dll.versionInfoResources with
    | none => .error "No versionInfoResource found"
    | some resourceValues =>
      match resourceValues.head? with
      | none => .error "no vsInfoSub found"
      | some vsInfoSub =>
        match vsInfoSub.head? with
        | none => .error "No versionInfo found"
        | some versionInfo =>
          match versionInfo.fixedFileInfo with
          | none => .error "No fileInfo found"
          | some f =>
            match parseVersion f.dwFileVersionMS f.dwFileVersionLS <|>
                parseVersion f.dwProductVersionMS f.dwProductVersionLS with
            | none => .error "no addonVersion found"
            | some version =>
              match versionInfo.stringFileInfo with
              | none => .error "No StringFileInfo found"
              | some stringTables =>
                match stringTables.head? with
                | none => .error "cannot read string table of undefined"
                | some stringInfo =>
                  match lookupString stringInfo "ProductName" <|>
                      lookupString stringInfo "FileDescription" with
                  | none => .error "No addonName found"
                  | some name =>
                    let versionStr :=
                      (lookupString stringInfo "FileVersion" <|>
                        lookupString stringInfo "ProductVersion").getD (renderVersion version)
                    .ok { id := id, name := name, version := version,
                          version_str := versionStr, download_url := downloadUrl }

/-- The candidate loop of createReleaseFromArchive: probe each remaining
`.dll` entry in archive order with the export check, build the release from
the first entry that passes, fail when none is left. -/
def probeCandidates (env : Env) (id downloadUrl : String) :
    List (String × List Nat) → Except String Release
  | [] => .error "no valid release assets found in archive"
  | file :: rest =>
    if env.checkDllExports file.2 then
      createReleaseFromDll env file.2 id downloadUrl
    else probeCandidates env id downloadUrl rest

/-- createReleaseFromArchive from src/addon.ts: unzip the buffer, keep the
entries whose name ends in `.dll` in archive order, and probe them in order
against the export check. -/
def createReleaseFromArchive (env : Env) (fileBuffer : List Nat) (id downloadUrl : String) :
    Except String Release :=
  match env.unzip fileBuffer with
  | .error e => .error e
  | .ok unzipped =>
    probeCandidates env id downloadUrl
      (unzipped.filter (fun f => strEndsWith f.1 ".dll"))

/-- Standalone host configuration: the download URL, the version URL, and the
optional prerelease URL pair. -/
structure StandaloneHost where
  url : String
  version_url : String
  prerelease_url : Option String := none
  prerelease_version_url : Option String := none
deriving DecidableEq, Repr

/-- GitHub host configuration: the `owner/repo` string. -/
structure GithubHost where
  url : String
deriving DecidableEq, Repr

/-- createRelease from src/standalone.ts: download the binary, then dispatch
on the final URL suffix — `.dll` parses the bytes directly, `.zip` goes
through the archive locator, anything else is a hard failure. -/
def createRelease (env : Env) (host_url id : String) : Except String Release :=
  match env.fetch host_url with
  | .error e => .error e
  | .ok file =>
    if fetchOk file then
      if strEndsWith file.url ".dll" then
        createReleaseFromDll env file.body id file.url
      else if strEndsWith file.url ".zip" then
        createReleaseFromArchive env file.body id file.url
      else .error ("given host url has not supported file ending " ++ host_url)
    else .error ("Unable to download asset " ++ host_url)

/-- downloadAndCheckVersion from src/standalone.ts: fetch the version URL,
hash the body as the content identity; when there is no old release or the
identity changed, build a new release and return it only if it is strictly
newer than the old one; otherwise return the old release. -/
def downloadAndCheckVersion (env : Env) (oldRelease : Option Release)
    (version_url host_url : String) : Except String (Option Release) :=
  match env.fetch version_url with
  | .error e => .error e
  | .ok versionRes =>
    if fetchOk versionRes then
      let id := env.sha256 versionRes.body
      match oldRelease with
      | none =>
        match createRelease env host_url id with
        | .error e => .error e
        | .ok release => .ok (some release)
      | some old =>
        if old.id ≠ id then
          match createRelease env host_url id with
          | .error e => .error e
          | .ok release =>
            if isGreater release.version old.version then .ok (some release)
            else .ok (some old)
        else .ok (some old)
    else .error ("fetching version failed (" ++ toString versionRes.status ++ ")")

/-- updateStandalone from src/standalone.ts: resolve the stable channel; when
the prerelease channel is configured and a stable release is present, resolve
it too and keep the prerelease only if it is strictly greater than the stable
release; in every other case the result carries no prerelease. -/
def updateStandalone (env : Env) (existing : ReleaseInfo) (host : StandaloneHost) :
    Except String ReleaseInfo :=
  match downloadAndCheckVersion env existing.release host.version_url host.url with
  | .error e => .error e
  | .ok release =>
    match host.prerelease_url, host.prerelease_version_url, release with
    | some prereleaseUrl, some prereleaseVersionUrl, some rel =>
      match downloadAndCheckVersion env existing.prerelease prereleaseVersionUrl prereleaseUrl with
      | .error e => .error e
      | .ok (some prerelease) =>
        if isGreater prerelease.version rel.version then
          .ok { release := some rel, prerelease := some prerelease }
        else .ok { release := release }
      | .ok none => .ok { release := release }
    | _, _, _ => .ok { release := release }

/-- parseRepository from src/github.ts: split the `owner/repo` string at the
first slash. -/
def parseRepository (repository : String) : Repository :=
  let parts := repository.splitOn "/"
  { owner := parts.getD 0 "", repo := parts.getD 1 "" }

/-- checkAssetChanged from src/github.ts: treat as changed when there is no
old release or no recorded asset index, or when the asset at that index in
the new listing is missing or its id no longer matches the old identity. -/
def checkAssetChanged (release : Option Release) (githubRelease : GithubRelease) : Bool :=
  match release with
  | none => true
  | some r =>
    match r.asset_index with
    | none => true
    | some i =>
      match githubRelease.assets.get? i with
      | none => true
      | some last_asset => toString last_asset.id != r.id

/-- downloadFromGithub from src/github.ts: download the asset bytes, then
dispatch on the asset name suffix — `.dll` parses directly, `.zip` goes
through the archive locator, anything else yields no release (a skip). -/
def downloadFromGithub (env : Env) (asset : GithubAsset) (repository : Repository) :
    Except String (Option Release) :=
  match env.getReleaseAsset repository asset.id with
  | .error e => .error e
  | .ok fileBuffer =>
    if strEndsWith asset.name ".dll" then
      (createReleaseFromDll env fileBuffer (toString asset.id) asset.browser_download_url).map some
    else if strEndsWith asset.name ".zip" then
      (createReleaseFromArchive env fileBuffer (toString asset.id) asset.browser_download_url).map some
    else .ok none

/-- The asset loop of findAndCreateRelease, over the indexed asset list: skip
assets that yield no release; the first asset that yields one has its index
recorded, and is returned if strictly newer than the old release, otherwise
the old release is kept; when every asset is skipped, fail. -/
def findReleaseLoop (env : Env) (oldRelease : Option Release) (repository : Repository) :
    List (Nat × GithubAsset) → Except String (Option Release)
  | [] => .error "no valid release asset found"
  | (i, asset) :: rest =>
    match downloadFromGithub env asset repository with
    | .error e => .error e
    | .ok none => findReleaseLoop env oldRelease repository rest
    | .ok (some r) =>
      let release := { r with asset_index := some i }
      match oldRelease with
      | none => .ok (some release)
      | some old =>
        if isGreater release.version old.version then .ok (some release)
        else .ok (some old)

/-- findAndCreateRelease from src/github.ts: when the recorded asset is
unchanged return the old release as-is, otherwise scan the remote assets in
listed order. -/
def findAndCreateRelease (env : Env) (oldRelease : Option Release)
    (githubRelease : GithubRelease) (repository : Repository) :
    Except String (Option Release) :=
  if checkAssetChanged oldRelease githubRelease then
    findReleaseLoop env oldRelease repository githubRelease.assets.enum
  else .ok oldRelease

/-- The try/catch around getLatestRelease in updateFromGithub: a failed
lookup is tolerated and yields no latest release. -/
def latestOpt (env : Env) (repository : Repository) : Option GithubRelease :=
  match env.getLatestRelease repository with
  | .ok r => some r
  | .error _ => none

/-- The stable step of updateFromGithub: resolve the latest release payload
against the existing stable record when one was found, otherwise no stable
release this pass. -/
def resolveStable (env : Env) (oldRelease : Option Release)
    (latestRelease : Option GithubRelease) (repository : Repository) :
    Except String (Option Release) :=
  match latestRelease with
  | some lr => findAndCreateRelease env oldRelease lr repository
  | none => .ok none

/-- The prerelease walk of updateFromGithub: in API listing order, the first
non-draft prerelease entry is resolved against the existing prerelease record
and the function returns immediately; reaching the entry whose id equals the
latest stable release id stops the walk with no prerelease; an exhausted list
also yields no prerelease. -/
def goReleases (env : Env) (oldPrerelease : Option Release) (release : Option Release)
    (latestId : Option Nat) (repository : Repository) :
    List GithubRelease → Except String ReleaseInfo
  | [] => .ok { release := release }
  | githubRelease :: rest =>
    if githubRelease.prerelease && !githubRelease.draft then
      (findAndCreateRelease env oldPrerelease githubRelease repository).map
        (fun prerelease => { release := release, prerelease := prerelease })
    else if latestId = some githubRelease.id then
      .ok { release := release }
    else goReleases env oldPrerelease release latestId repository rest

/-- updateFromGithub from src/github.ts: list the releases, look up the
latest stable release (failure tolerated), resolve the stable channel, then
walk the listing for a prerelease until the latest stable entry is reached. -/
def updateFromGithub (env : Env) (existing : Option ReleaseInfo) (host : GithubHost) :
    Except String ReleaseInfo :=
  let repository := parseRepository host.url
  match env.listReleases repository with
  | .error e => .error e
  | .ok releases =>
    let latestRelease := latestOpt env repository
    match resolveStable env (existing.bind (fun i => i.release)) latestRelease repository with
    | .error e => .error e
    | .ok release =>
      goReleases env (existing.bind (fun i => i.prerelease)) release
        (latestRelease.map (fun r => r.id)) repository releases

/-- Addon package identity and display name. -/
structure AddonPackage where
  id : String
  name : String
deriving DecidableEq, Repr

/-- The host variant of an addon definition. -/
inductive Host where
  | github (h : GithubHost)
  | standalone (h : StandaloneHost)
deriving DecidableEq, Repr

/-- An addon record: the package identity, the host configuration, and the
mutable release/prerelease/name fields owned by the reconciler. -/
structure Addon where
  package : AddonPackage
  host : Host
  release : Option Release := none
  prerelease : Option Release := none
  addon_names : Option (List String) := none
deriving DecidableEq, Repr

/-- The manifest payload: the addon list and the loader release info. -/
structure ManifestData where
  addons : List Addon
  loader : ReleaseInfo
deriving DecidableEq, Repr

/-- The versioned manifest record `{version: 1, data}`. -/
structure Manifest where
  version : Nat
  data : ManifestData
deriving DecidableEq, Repr

/-- The in-place mutation of the found addon in the merge loop of
generateManifest: copy release, prerelease and addon_names from the existing
manifest entry onto the first current addon with the same package id. -/
def updateFirst (addons : List Addon) (existingAddon : Addon) : List Addon :=
  match addons with
  | [] => []
  | a :: rest =>
    if a.package.id == existingAddon.package.id then
      { a with release := existingAddon.release,
               prerelease := existingAddon.prerelease,
               addon_names := existingAddon.addon_names } :: rest
    else a :: updateFirst rest existingAddon

/-- The removal warning emitted by the merge loop. -/
def removedWarning (id : String) : String :=
  "Addon " ++ id ++ " was removed from manifest!"

/-- The merge loop of generateManifest (src/main.ts): for each addon of the
existing manifest in order, if a current addon definition shares its package
id, carry release/prerelease/addon_names over onto it; otherwise emit one
removal warning and leave the current list unchanged. Returns the merged
list and the warnings in emission order. -/
def mergeAddons (addons : List Addon) : List Addon → List Addon × List String
  | [] => (addons, [])
  | existingAddon :: rest =>
    if addons.any (fun a => a.package.id == existingAddon.package.id) then
      mergeAddons (updateFirst addons existingAddon) rest
    else
      let result := mergeAddons addons rest
      (result.1, removedWarning existingAddon.package.id :: result.2)

/-- The loader update step of generateManifest: default the loader to the
prior manifest loader (or an empty ReleaseInfo), and when a loader
repository is configured try the GitHub resolver, keeping the default on
any thrown failure (the failure is reported, not propagated). -/
def updateLoader (env : Env) (existingLoader : Option ReleaseInfo)
    (loaderRepo : Option String) : ReleaseInfo :=
  let loader := existingLoader.getD {}
  match loaderRepo with
  | none => loader
  | some repoUrl =>
    match updateFromGithub env existingLoader { url := repoUrl } with
    | .ok updated => updated
    | .error _ => loader

/-- The manifest value assembled at the end of generateManifest. -/
def buildManifest (addons : List Addon) (loader : ReleaseInfo) : Manifest :=
  { version := 1, data := { addons := addons, loader := loader } }

/-- C8: isGreater on 4-component version tuples is a strict order: whenever
isGreater a b is true, isGreater b a is false, and isGreater a a is always
false — components are compared most-significant first, returning at the
first differing component. -/
theorem isGreater_strict_order :
    (∀ a b : Version, isGreater a b = true → isGreater b a = false) ∧
    (∀ a : Version, isGreater a a = false) := by
  constructor
  · intro a b h
    simp only [isGreater] at h ⊢
    split_ifs at h ⊢ <;> simp_all <;> omega
  · intro a
    simp [isGreater]

/-- Witness for C8: a concrete pair where the order holds in one direction
and is therefore refuted in the other. -/
theorem isGreater_strict_order_witness :
    isGreater { c0 := 1, c1 := 2, c2 := 3, c3 := 4 } { c0 := 1, c1 := 2, c2 := 3, c3 := 3 } = true ∧
    isGreater { c0 := 1, c1 := 2, c2 := 3, c3 := 3 } { c0 := 1, c1 := 2, c2 := 3, c3 := 4 } = false :=
  ⟨by decide, isGreater_strict_order.1 _ _ (by decide)⟩

/-- C2: in the standalone per-channel resolution, an unchanged content hash
returns the existing release exactly; and when the hash differs but the newly
built release is not strictly greater, the existing release is returned and
the downgrade suppressed. -/
theorem downloadAndCheckVersion_keeps_old (env : Env) (old : Release)
    (version_url host_url : String) (versionRes : FetchResult) (r : Release)
    (hfetch : env.fetch version_url = .ok versionRes)
    (hok : fetchOk versionRes = true) :
    (env.sha256 versionRes.body = old.id →
      downloadAndCheckVersion env (some old) version_url host_url = .ok (some old)) ∧
    (env.sha256 versionRes.body ≠ old.id →
      createRelease env host_url (env.sha256 versionRes.body) = .ok r →
      isGreater r.version old.version = false →
      downloadAndCheckVersion env (some old) version_url host_url = .ok (some old)) := by
  constructor
  · intro hid
    simp [downloadAndCheckVersion, hfetch, hok, hid]
  · intro hid hcr hng
    simp [downloadAndCheckVersion, hfetch, hok, Ne.symm hid, hcr, hng]

/-- A standalone environment for the witness: the version URL hashes to the
identity already recorded on the old release. -/
def c2Env : Env :=
  { fetch := fun _ => .ok { status := 200, body := [1], url := "x" }
    sha256 := fun _ => "h1"
    parseDll := fun _ => .error "unused"
    unzip := fun _ => .error "unused"
    checkDllExports := fun _ => false
    listReleases := fun _ => .error "unused"
    getLatestRelease := fun _ => .error "unused"
    getReleaseAsset := fun _ _ => .error "unused" }

/-- The recorded release for the C2 witness. -/
def c2Old : Release :=
  { id := "h1", name := "A", version := { c0 := 1, c1 := 0, c2 := 0, c3 := 0 },
    version_str := "1.0.0.0", download_url := "d" }

/-- Witness for C2: with an unchanged hash the resolution returns the
recorded release unchanged. -/
theorem downloadAndCheckVersion_keeps_old_witness :
    downloadAndCheckVersion c2Env (some c2Old) "v" "h" = .ok (some c2Old) :=
  (downloadAndCheckVersion_keeps_old c2Env c2Old "v" "h"
      { status := 200, body := [1], url := "x" } c2Old rfl rfl).1 rfl

/-- Over 32-bit words, the decoded tuple is all-zero exactly when both words
are zero. -/
theorem decodeTuple_eq_zero_iff (ms ls : Nat)
    (hms : ms < 4294967296) (hls : ls < 4294967296) :
    decodeTuple ms ls = zeroVersion ↔ ms = 0 ∧ ls = 0 := by
  simp only [decodeTuple, zeroVersion, Version.mk.injEq]
  omega

/-- parseVersion yields the decoded tuple when the words are not both zero. -/
theorem parseVersion_eq_some (ms ls : Nat) (h : ¬(ms = 0 ∧ ls = 0)) :
    parseVersion ms ls = some (decodeTuple ms ls) := by
  simp [parseVersion, h]

/-- parseVersion rejects the all-zero word pair. -/
theorem parseVersion_eq_none (ms ls : Nat) (h1 : ms = 0) (h2 : ls = 0) :
    parseVersion ms ls = none := by
  simp [parseVersion, h1, h2]

/-- When the version choice resolves to some tuple v, any successful
createReleaseFromDll result carries exactly v as its version. -/
theorem createReleaseFromDll_ok_version
    (env : Env) (fileBuffer : List Nat) (id downloadUrl : String)
    (dll : DllData) (resourceValues : List (List VersionInfo))
    (vsInfoSub : List VersionInfo) (versionInfo : VersionInfo) (f : FixedFileInfo)
    (v : Version)
    (hparse : env.parseDll fileBuffer = .ok dll)
    (hres : dll.versionInfoResources = some resourceValues)
    (hsub : resourceValues.head? = some vsInfoSub)
    (hvi : vsInfoSub.head? = some versionInfo)
    (hffi : versionInfo.fixedFileInfo = some f)
    (hv : (parseVersion f.dwFileVersionMS f.dwFileVersionLS <|>
        parseVersion f.dwProductVersionMS f.dwProductVersionLS) = some v) :
    ∀ r, createReleaseFromDll env fileBuffer id downloadUrl = .ok r → r.version = v := by
  intro r hr
  simp only [createReleaseFromDll, hparse, hres, hsub, hvi, hffi, hv] at hr
  split at hr
  · simp at hr
  · split at hr
    · simp at hr
    · split at hr
      · simp at hr
      · cases hr
        rfl

/-- When both word pairs decode to nothing, createReleaseFromDll fails with
the no-version error. -/
theorem createReleaseFromDll_no_version
    (env : Env) (fileBuffer : List Nat) (id downloadUrl : String)
    (dll : DllData) (resourceValues : List (List VersionInfo))
    (vsInfoSub : List VersionInfo) (versionInfo : VersionInfo) (f : FixedFileInfo)
    (hparse : env.parseDll fileBuffer = .ok dll)
    (hres : dll.versionInfoResources = some resourceValues)
    (hsub : resourceValues.head? = some vsInfoSub)
    (hvi : vsInfoSub.head? = some versionInfo)
    (hffi : versionInfo.fixedFileInfo = some f)
    (hv : (parseVersion f.dwFileVersionMS f.dwFileVersionLS <|>
        parseVersion f.dwProductVersionMS f.dwProductVersionLS) = none) :
    createReleaseFromDll env fileBuffer id downloadUrl = .error "no addonVersion found" := by
  simp only [createReleaseFromDll, hparse, hres, hsub, hvi, hffi, hv]

/-- C3: the file-version tuple is used when it is not entirely zero; when it
is entirely zero the product-version tuple is used instead; when both are
entirely zero the extraction fails; and a returned Release never has version
[0,0,0,0] (word pairs are 32-bit PE fields). -/
theorem createReleaseFromDll_version_selection
    (env : Env) (fileBuffer : List Nat) (id downloadUrl : String)
    (dll : DllData) (resourceValues : List (List VersionInfo))
    (vsInfoSub : List VersionInfo) (versionInfo : VersionInfo) (f : FixedFileInfo)
    (hparse : env.parseDll fileBuffer = .ok dll)
    (hres : dll.versionInfoResources = some resourceValues)
    (hsub : resourceValues.head? = some vsInfoSub)
    (hvi : vsInfoSub.head? = some versionInfo)
    (hffi : versionInfo.fixedFileInfo = some f)
    (hb1 : f.dwFileVersionMS < 4294967296) (hb2 : f.dwFileVersionLS < 4294967296)
    (hb3 : f.dwProductVersionMS < 4294967296) (hb4 : f.dwProductVersionLS < 4294967296) :
    (decodeTuple f.dwFileVersionMS f.dwFileVersionLS ≠ zeroVersion →
      ∀ r, createReleaseFromDll env fileBuffer id downloadUrl = .ok r →
        r.version = decodeTuple f.dwFileVersionMS f.dwFileVersionLS) ∧
    (decodeTuple f.dwFileVersionMS f.dwFileVersionLS = zeroVersion →
      decodeTuple f.dwProductVersionMS f.dwProductVersionLS ≠ zeroVersion →
      ∀ r, createReleaseFromDll env fileBuffer id downloadUrl = .ok r →
        r.version = decodeTuple f.dwProductVersionMS f.dwProductVersionLS) ∧
    (decodeTuple f.dwFileVersionMS f.dwFileVersionLS = zeroVersion →
      decodeTuple f.dwProductVersionMS f.dwProductVersionLS = zeroVersion →
      createReleaseFromDll env fileBuffer id downloadUrl = .error "no addonVersion found") ∧
    (∀ r, createReleaseFromDll env fileBuffer id downloadUrl = .ok r →
      r.version ≠ zeroVersion) := by
  have hfz := decodeTuple_eq_zero_iff f.dwFileVersionMS f.dwFileVersionLS hb1 hb2
  have hpz := decodeTuple_eq_zero_iff f.dwProductVersionMS f.dwProductVersionLS hb3 hb4
  have key1 : decodeTuple f.dwFileVersionMS f.dwFileVersionLS ≠ zeroVersion →
      (parseVersion f.dwFileVersionMS f.dwFileVersionLS <|>
        parseVersion f.dwProductVersionMS f.dwProductVersionLS) =
        some (decodeTuple f.dwFileVersionMS f.dwFileVersionLS) := by
    intro hne
    have hno : ¬(f.dwFileVersionMS = 0 ∧ f.dwFileVersionLS = 0) := fun hc => hne (hfz.mpr hc)
    rw [parseVersion_eq_some _ _ hno]
    rfl
  have key2 : decodeTuple f.dwFileVersionMS f.dwFileVersionLS = zeroVersion →
      decodeTuple f.dwProductVersionMS f.dwProductVersionLS ≠ zeroVersion →
      (parseVersion f.dwFileVersionMS f.dwFileVersionLS <|>
        parseVersion f.dwProductVersionMS f.dwProductVersionLS) =
        some (decodeTuple f.dwProductVersionMS f.dwProductVersionLS) := by
    intro hz hnz
    obtain ⟨h1, h2⟩ := hfz.mp hz
    have hno : ¬(f.dwProductVersionMS = 0 ∧ f.dwProductVersionLS = 0) := fun hc => hnz (hpz.mpr hc)
    rw [parseVersion_eq_none _ _ h1 h2, parseVersion_eq_some _ _ hno]
    rfl
  have key3 : decodeTuple f.dwFileVersionMS f.dwFileVersionLS = zeroVersion →
      decodeTuple f.dwProductVersionMS f.dwProductVersionLS = zeroVersion →
      (parseVersion f.dwFileVersionMS f.dwFileVersionLS <|>
        parseVersion f.dwProductVersionMS f.dwProductVersionLS) = none := by
    intro hz1 hz2
    obtain ⟨h1, h2⟩ := hfz.mp hz1
    obtain ⟨h3, h4⟩ := hpz.mp hz2
    rw [parseVersion_eq_none _ _ h1 h2, parseVersion_eq_none _ _ h3 h4]
    rfl
  refine ⟨?_, ?_, ?_, ?_⟩
  · intro hne r hr
    exact createReleaseFromDll_ok_version env fileBuffer id downloadUrl dll resourceValues
      vsInfoSub versionInfo f _ hparse hres hsub hvi hffi (key1 hne) r hr
  · intro hz hnz r hr
    exact createReleaseFromDll_ok_version env fileBuffer id downloadUrl dll resourceValues
      vsInfoSub versionInfo f _ hparse hres hsub hvi hffi (key2 hz hnz) r hr
  · intro hz1 hz2
    exact createReleaseFromDll_no_version env fileBuffer id downloadUrl dll resourceValues
      vsInfoSub versionInfo f hparse hres hsub hvi hffi (key3 hz1 hz2)
  · intro r hr
    by_cases hz : decodeTuple f.dwFileVersionMS f.dwFileVersionLS = zeroVersion
    · by_cases hz2 : decodeTuple f.dwProductVersionMS f.dwProductVersionLS = zeroVersion
      · have herr := createReleaseFromDll_no_version env fileBuffer id downloadUrl dll
          resourceValues vsInfoSub versionInfo f hparse hres hsub hvi hffi (key3 hz hz2)
        rw [herr] at hr
        exact absurd hr (by simp)
      · have hv := createReleaseFromDll_ok_version env fileBuffer id downloadUrl dll
          resourceValues vsInfoSub versionInfo f _ hparse hres hsub hvi hffi (key2 hz hz2) r hr
        rw [hv]
        exact hz2
    · have hv := createReleaseFromDll_ok_version env fileBuffer id downloadUrl dll
        resourceValues vsInfoSub versionInfo f _ hparse hres hsub hvi hffi (key1 hz) r hr
      rw [hv]
      exact hz

/-- The parsed PE data for the C3 witness: file version 1.0.0.2, product
version words all zero, a ProductName and a FileVersion string. -/
def c3Dll : DllData :=
  { versionInfoResources := some [[
      { fixedFileInfo := some
          { dwFileVersionMS := 65536, dwFileVersionLS := 2,
            dwProductVersionMS := 0, dwProductVersionLS := 0 }
        stringFileInfo := some [[("ProductName", "Addon"), ("FileVersion", "1.0.0.2")]] }]] }

/-- Environment whose PE parser yields the C3 witness data. -/
def c3Env : Env :=
  { fetch := fun _ => .error "unused"
    sha256 := fun _ => "h"
    parseDll := fun _ => .ok c3Dll
    unzip := fun _ => .error "unused"
    checkDllExports := fun _ => false
    listReleases := fun _ => .error "unused"
    getLatestRelease := fun _ => .error "unused"
    getReleaseAsset := fun _ _ => .error "unused" }

/-- The release extracted from the C3 witness data. -/
def c3Rel : Release :=
  { id := "i", name := "Addon", version := { c0 := 1, c1 := 0, c2 := 0, c3 := 2 },
    version_str := "1.0.0.2", download_url := "u" }

/-- Witness for C3: on concrete PE data with a nonzero file-version pair, the
extracted version is the decoded file-version tuple and is not all-zero. -/
theorem createReleaseFromDll_version_selection_witness :
    c3Rel.version = decodeTuple 65536 2 ∧ c3Rel.version ≠ zeroVersion :=
  have h := createReleaseFromDll_version_selection c3Env [0] "i" "u" c3Dll
    [[{ fixedFileInfo := some
          { dwFileVersionMS := 65536, dwFileVersionLS := 2,
            dwProductVersionMS := 0, dwProductVersionLS := 0 }
        stringFileInfo := some [[("ProductName", "Addon"), ("FileVersion", "1.0.0.2")]] }]]
    [{ fixedFileInfo := some
          { dwFileVersionMS := 65536, dwFileVersionLS := 2,
            dwProductVersionMS := 0, dwProductVersionLS := 0 }
       stringFileInfo := some [[("ProductName", "Addon"), ("FileVersion", "1.0.0.2")]] }]
    { fixedFileInfo := some
        { dwFileVersionMS := 65536, dwFileVersionLS := 2,
          dwProductVersionMS := 0, dwProductVersionLS := 0 }
      stringFileInfo := some [[("ProductName", "Addon"), ("FileVersion", "1.0.0.2")]] }
    { dwFileVersionMS := 65536, dwFileVersionLS := 2,
      dwProductVersionMS := 0, dwProductVersionLS := 0 }
    rfl rfl rfl rfl rfl (by decide) (by decide) (by decide) (by decide)
  ⟨h.1 (by decide) c3Rel (by rfl), h.2.2.2 c3Rel (by rfl)⟩

/-- Probing returns the release of the first passing candidate, regardless of
what follows it. -/
theorem probeCandidates_first (env : Env) (id downloadUrl : String) :
    ∀ (before : List (String × List Nat)) (c : String × List Nat)
      (after : List (String × List Nat)),
      (∀ x ∈ before, env.checkDllExports x.2 = false) →
      env.checkDllExports c.2 = true →
      probeCandidates env id downloadUrl (before ++ c :: after) =
        createReleaseFromDll env c.2 id downloadUrl := by
  intro before
  induction before with
  | nil =>
    intro c after _ hc
    simp [probeCandidates, hc]
  | cons x xs ih =>
    intro c after hb hc
    have hx : env.checkDllExports x.2 = false := hb x (by simp)
    simp only [List.cons_append, probeCandidates, hx, Bool.false_eq_true, if_false]
    exact ih c after (fun y hy => hb y (by simp [hy])) hc

/-- Probing a list with no passing candidate fails with the archive error. -/
theorem probeCandidates_none (env : Env) (id downloadUrl : String) :
    ∀ l : List (String × List Nat),
      (∀ x ∈ l, env.checkDllExports x.2 = false) →
      probeCandidates env id downloadUrl l = .error "no valid release assets found in archive" := by
  intro l
  induction l with
  | nil => intro _; rfl
  | cons x xs ih =>
    intro h
    have hx : env.checkDllExports x.2 = false := h x (by simp)
    simp only [probeCandidates, hx, Bool.false_eq_true, if_false]
    exact ih (fun y hy => h y (by simp [hy]))

/-- C5: candidates (entries named *.dll) are probed in archive order; the
result derives from the first candidate passing the validity predicate and
does not depend on the candidates after it; when no candidate passes, the
operation fails with the no-valid-asset-in-archive error. -/
theorem createReleaseFromArchive_first_valid
    (env : Env) (fileBuffer : List Nat) (id downloadUrl : String)
    (entries : List (String × List Nat))
    (hunzip : env.unzip fileBuffer = .ok entries) :
    (∀ (before : List (String × List Nat)) (c : String × List Nat)
        (after : List (String × List Nat)),
      entries.filter (fun f => strEndsWith f.1 ".dll") = before ++ c :: after →
      (∀ x ∈ before, env.checkDllExports x.2 = false) →
      env.checkDllExports c.2 = true →
      createReleaseFromArchive env fileBuffer id downloadUrl =
        createReleaseFromDll env c.2 id downloadUrl) ∧
    ((∀ x ∈ entries.filter (fun f => strEndsWith f.1 ".dll"),
        env.checkDllExports x.2 = false) →
      createReleaseFromArchive env fileBuffer id downloadUrl =
        .error "no valid release assets found in archive") := by
  constructor
  · intro before c after hsplit hb hc
    simp only [createReleaseFromArchive, hunzip, hsplit]
    exact probeCandidates_first env id downloadUrl before c after hb hc
  · intro hall
    simp only [createReleaseFromArchive, hunzip]
    exact probeCandidates_none env id downloadUrl _ hall

/-- Environment for the C5 witness: an archive with three dll candidates (and
one non-dll entry) of which only the second passes the export check. -/
def c5Env : Env :=
  { fetch := fun _ => .error "unused"
    sha256 := fun _ => "h"
    parseDll := fun _ => .ok c3Dll
    unzip := fun _ => .ok [("a.dll", [1]), ("b.dll", [2]), ("c.dll", [3]), ("readme.txt", [9])]
    checkDllExports := fun b => b == [2]
    listReleases := fun _ => .error "unused"
    getLatestRelease := fun _ => .error "unused"
    getReleaseAsset := fun _ _ => .error "unused" }

/-- Witness for C5: the returned release derives from the second candidate,
the only one passing the predicate. -/
theorem createReleaseFromArchive_first_valid_witness :
    createReleaseFromArchive c5Env [7] "i" "u" = createReleaseFromDll c5Env [2] "i" "u" :=
  (createReleaseFromArchive_first_valid c5Env [7] "i" "u"
      [("a.dll", [1]), ("b.dll", [2]), ("c.dll", [3]), ("readme.txt", [9])] rfl).1
    [("a.dll", [1])] ("b.dll", [2]) [("c.dll", [3])]
    (by decide) (by decide) (by decide)

/-- Unfolding updateFromGithub once the release listing and the stable step
are known: what remains is the prerelease walk. -/
theorem updateFromGithub_eq (env : Env) (existing : Option ReleaseInfo) (host : GithubHost)
    (releases : List GithubRelease) (release : Option Release)
    (hlist : env.listReleases (parseRepository host.url) = .ok releases)
    (hstable : resolveStable env (existing.bind (fun i => i.release))
        (latestOpt env (parseRepository host.url)) (parseRepository host.url) = .ok release) :
    updateFromGithub env existing host =
      goReleases env (existing.bind (fun i => i.prerelease)) release
        ((latestOpt env (parseRepository host.url)).map (fun r => r.id))
        (parseRepository host.url) releases := by
  simp only [updateFromGithub, hlist, hstable]

/-- The prerelease walk skips entries that neither qualify as non-draft
prereleases nor carry the latest stable id. -/
theorem goReleases_skip (env : Env) (oldPrerelease release : Option Release)
    (latestId : Option Nat) (repository : Repository) :
    ∀ (before : List GithubRelease) (entry : GithubRelease) (after : List GithubRelease),
      (∀ e ∈ before, (e.prerelease && !e.draft) = false ∧ latestId ≠ some e.id) →
      goReleases env oldPrerelease release latestId repository (before ++ entry :: after) =
        goReleases env oldPrerelease release latestId repository (entry :: after) := by
  intro before
  induction before with
  | nil => intro entry after _; rfl
  | cons x xs ih =>
    intro entry after h
    obtain ⟨h1, h2⟩ := h x (by simp)
    simp only [List.cons_append, goReleases, h1, Bool.false_eq_true, if_false, h2]
    exact ih entry after (fun y hy => h y (by simp [hy]))

/-- C4: walking the listing in API order, the first non-draft prerelease
entry is resolved and the function returns immediately, independent of every
later entry; if the walk reaches the entry whose id equals the latest stable
release first, it stops with no prerelease, again independent of the later
entries. -/
theorem updateFromGithub_walk_behavior
    (env : Env) (existing : Option ReleaseInfo) (host : GithubHost)
    (releasesBefore : List GithubRelease) (entry : GithubRelease)
    (releasesAfter : List GithubRelease) (release : Option Release)
    (hlist : env.listReleases (parseRepository host.url) =
      .ok (releasesBefore ++ entry :: releasesAfter))
    (hstable : resolveStable env (existing.bind (fun i => i.release))
        (latestOpt env (parseRepository host.url)) (parseRepository host.url) = .ok release)
    (hbefore : ∀ e ∈ releasesBefore, (e.prerelease && !e.draft) = false ∧
        (latestOpt env (parseRepository host.url)).map (fun r => r.id) ≠ some e.id) :
    ((entry.prerelease && !entry.draft) = true →
      updateFromGithub env existing host =
        (findAndCreateRelease env (existing.bind (fun i => i.prerelease)) entry
            (parseRepository host.url)).map
          (fun prerelease => { release := release, prerelease := prerelease })) ∧
    ((entry.prerelease && !entry.draft) = false →
      (latestOpt env (parseRepository host.url)).map (fun r => r.id) = some entry.id →
      updateFromGithub env existing host = .ok { release := release }) := by
  have heq := updateFromGithub_eq env existing host
    (releasesBefore ++ entry :: releasesAfter) release hlist hstable
  have hskip := goReleases_skip env (existing.bind (fun i => i.prerelease)) release
    ((latestOpt env (parseRepository host.url)).map (fun r => r.id))
    (parseRepository host.url) releasesBefore entry releasesAfter hbefore
  constructor
  · intro hq
    rw [heq, hskip]
    simp only [goReleases, hq, if_true]
  · intro hq hid
    rw [heq, hskip]
    simp only [goReleases, hq, Bool.false_eq_true, if_false, hid, if_true]

/-- A qualifying prerelease entry used in github-side witnesses: one dll
asset with id 200. -/
def preEntry : GithubRelease :=
  { id := 2, prerelease := true, draft := false,
    assets := [{ id := 200, name := "b.dll", browser_download_url := "bp" }] }

/-- A draft entry, skipped by the walk. -/
def draftEntry : GithubRelease :=
  { id := 3, prerelease := true, draft := true, assets := [] }

/-- The prerelease record matching preEntry's asset (so the asset is seen as
unchanged). -/
def p5 : Release :=
  { id := "200", name := "B", version := { c0 := 5, c1 := 0, c2 := 0, c3 := 0 },
    version_str := "5.0.0.0", download_url := "bp", asset_index := some 0 }

/-- Environment for the C4 witness: no latest stable release, a draft entry
followed by a qualifying prerelease, then further entries. -/
def c4Env : Env :=
  { fetch := fun _ => .error "unused"
    sha256 := fun _ => "h"
    parseDll := fun _ => .error "unused"
    unzip := fun _ => .error "unused"
    checkDllExports := fun _ => false
    listReleases := fun _ => .ok [draftEntry, preEntry, draftEntry]
    getLatestRelease := fun _ => .error "no latest"
    getReleaseAsset := fun _ _ => .error "unused" }

/-- Witness for C4: with the draft entry skipped, the first qualifying
prerelease is resolved (here: unchanged, so the recorded one is returned)
and the walk stops there. -/
theorem updateFromGithub_walk_behavior_witness :
    updateFromGithub c4Env (some { release := none, prerelease := some p5 }) { url := "o/r" } =
      .ok { release := none, prerelease := some p5 } := by
  have h := (updateFromGithub_walk_behavior c4Env
    (some { release := none, prerelease := some p5 }) { url := "o/r" }
    [draftEntry] preEntry [draftEntry] none rfl rfl (by decide)).1 (by decide)
  rw [h]
  rfl

/-- Case analysis of a successful updateStandalone pass: either the
prerelease channel was configured, a stable release was present, the resolved
prerelease was strictly greater, and the result carries both; or the result
carries no prerelease at all. -/
theorem updateStandalone_cases (env : Env) (existing : ReleaseInfo) (host : StandaloneHost)
    (info : ReleaseInfo)
    (h : updateStandalone env existing host = .ok info) :
    (∃ rel prerelease prereleaseUrl prereleaseVersionUrl,
      host.prerelease_url = some prereleaseUrl ∧
      host.prerelease_version_url = some prereleaseVersionUrl ∧
      downloadAndCheckVersion env existing.release host.version_url host.url = .ok (some rel) ∧
      downloadAndCheckVersion env existing.prerelease prereleaseVersionUrl prereleaseUrl =
        .ok (some prerelease) ∧
      isGreater prerelease.version rel.version = true ∧
      info = { release := some rel, prerelease := some prerelease }) ∨
    (∃ release,
      downloadAndCheckVersion env existing.release host.version_url host.url = .ok release ∧
      info = { release := release, prerelease := none }) := by
  simp only [updateStandalone] at h
  split at h
  · exact absurd h (by simp)
  · split at h
    · rename_i prereleaseUrl prereleaseVersionUrl rel hpu hpvu hrelsome
      split at h
      · exact absurd h (by simp)
      · rename_i prerelease hpre
        split at h
        · rename_i hgt
          cases h
          exact Or.inl ⟨rel, prerelease, prereleaseUrl, prereleaseVersionUrl,
            hpu, hpvu, hrelsome, hpre, hgt, rfl⟩
        · cases h
          exact Or.inr ⟨_, hrelsome, rfl⟩
      · cases h
        exact Or.inr ⟨_, hrelsome, rfl⟩
    · rename_i hrel
      cases h
      exact Or.inr ⟨_, hrel, rfl⟩

/-- The stable release entry for github-side examples: one dll asset with
id 100. -/
def latestEntry : GithubRelease :=
  { id := 1, prerelease := false, draft := false,
    assets := [{ id := 100, name := "a.dll", browser_download_url := "ar" }] }

/-- The recorded stable release matching latestEntry's asset. -/
def r10 : Release :=
  { id := "100", name := "A", version := { c0 := 10, c1 := 0, c2 := 0, c3 := 0 },
    version_str := "10.0.0.0", download_url := "ar", asset_index := some 0 }

/-- Environment for the C1 counterexample: the listing holds a qualifying
prerelease entry before the latest stable entry, and both channels are
unchanged with respect to the recorded releases. -/
def c1Env : Env :=
  { fetch := fun _ => .error "unused"
    sha256 := fun _ => "h"
    parseDll := fun _ => .error "unused"
    unzip := fun _ => .error "unused"
    checkDllExports := fun _ => false
    listReleases := fun _ => .ok [preEntry, latestEntry]
    getLatestRelease := fun _ => .ok latestEntry
    getReleaseAsset := fun _ _ => .error "unused" }

/-- C1 counterexample: updateFromGithub returns a ReleaseInfo whose
prerelease (version 5.0.0.0) is not strictly greater than its release
(version 10.0.0.0) — the hosted-API resolver compares a prerelease only
against the previously recorded prerelease, never against the stable
release, so the claimed invariant fails for updateFromGithub. -/
theorem updateFromGithub_prerelease_not_greater_cex :
    updateFromGithub c1Env (some { release := some r10, prerelease := some p5 }) { url := "o/r" } =
      .ok { release := some r10, prerelease := some p5 } ∧
    isGreater p5.version r10.version = false :=
  ⟨rfl, by decide⟩

/-- C1 (amended): the invariant holds for the standalone resolver — whenever
a successful updateStandalone result contains a prerelease, the result also
contains a release and the prerelease version is strictly greater under
isGreater. (For updateFromGithub the invariant fails, see the
counterexample.) -/
theorem updateStandalone_prerelease_greater
    (env : Env) (existing : ReleaseInfo) (host : StandaloneHost) (info : ReleaseInfo)
    (pre : Release)
    (h : updateStandalone env existing host = .ok info)
    (hp : info.prerelease = some pre) :
    ∃ rel, info.release = some rel ∧ isGreater pre.version rel.version = true := by
  rcases updateStandalone_cases env existing host info h with
    ⟨rel, prerelease, _, _, _, _, _, _, hgt, hinfo⟩ | ⟨release, _, hinfo⟩
  · subst hinfo
    simp only at hp
    cases hp
    exact ⟨rel, rfl, hgt⟩
  · subst hinfo
    exact absurd hp (by simp)

/-- Parsed PE data for the standalone witness release channel:
version 1.0.0.0, name A. -/
def stdDll1 : DllData :=
  { versionInfoResources := some [[
      { fixedFileInfo := some
          { dwFileVersionMS := 65536, dwFileVersionLS := 0,
            dwProductVersionMS := 0, dwProductVersionLS := 0 }
        stringFileInfo := some [[("ProductName", "A")]] }]] }

/-- Parsed PE data for the standalone witness prerelease channel:
version 2.0.0.0, name A2. -/
def stdDll2 : DllData :=
  { versionInfoResources := some [[
      { fixedFileInfo := some
          { dwFileVersionMS := 131072, dwFileVersionLS := 0,
            dwProductVersionMS := 0, dwProductVersionLS := 0 }
        stringFileInfo := some [[("ProductName", "A2")]] }]] }

/-- Standalone host with both channels configured, for the witnesses. -/
def stdHost : StandaloneHost :=
  { url := "ur", version_url := "vr",
    prerelease_url := some "up", prerelease_version_url := some "vp" }

/-- Standalone environment for the witnesses: distinct version bodies per
channel, a dll at each download URL, the prerelease one strictly newer. -/
def stdEnv : Env :=
  { fetch := fun u =>
      if u = "vr" then .ok { status := 200, body := [1], url := "vr" }
      else if u = "ur" then .ok { status := 200, body := [10], url := "r.dll" }
      else if u = "vp" then .ok { status := 200, body := [2], url := "vp" }
      else .ok { status := 200, body := [20], url := "p.dll" }
    sha256 := fun b => if b = [1] then "h1" else "h2"
    parseDll := fun b => if b = [10] then .ok stdDll1 else .ok stdDll2
    unzip := fun _ => .error "unused"
    checkDllExports := fun _ => false
    listReleases := fun _ => .error "unused"
    getLatestRelease := fun _ => .error "unused"
    getReleaseAsset := fun _ _ => .error "unused" }

/-- The stable release resolved by stdEnv. -/
def stdRelA : Release :=
  { id := "h1", name := "A", version := { c0 := 1, c1 := 0, c2 := 0, c3 := 0 },
    version_str := "1.0.0.0", download_url := "r.dll" }

/-- The prerelease resolved by stdEnv. -/
def stdRelB : Release :=
  { id := "h2", name := "A2", version := { c0 := 2, c1 := 0, c2 := 0, c3 := 0 },
    version_str := "2.0.0.0", download_url := "p.dll" }

/-- Witness for C1 (amended): a concrete standalone pass that returns a
prerelease, which is indeed strictly greater than the returned release. -/
theorem updateStandalone_prerelease_greater_witness :
    ∃ rel, ({ release := some stdRelA, prerelease := some stdRelB } : ReleaseInfo).release =
        some rel ∧ isGreater stdRelB.version rel.version = true :=
  updateStandalone_prerelease_greater stdEnv {} stdHost
    { release := some stdRelA, prerelease := some stdRelB } stdRelB rfl rfl

/-- C9: a successful updateStandalone result contains a prerelease only when
the host configures both prerelease URLs, a stable release is present, and
the prerelease resolved from the prerelease channel compares strictly
greater; whenever either prerelease URL is unconfigured the result carries no
prerelease, even if the existing ReleaseInfo had one. -/
theorem updateStandalone_prerelease_characterization
    (env : Env) (existing : ReleaseInfo) (host : StandaloneHost) (info : ReleaseInfo)
    (h : updateStandalone env existing host = .ok info) :
    (∀ pre, info.prerelease = some pre →
      ∃ prereleaseUrl prereleaseVersionUrl rel,
        host.prerelease_url = some prereleaseUrl ∧
        host.prerelease_version_url = some prereleaseVersionUrl ∧
        info.release = some rel ∧
        downloadAndCheckVersion env existing.prerelease prereleaseVersionUrl prereleaseUrl =
          .ok (some pre) ∧
        isGreater pre.version rel.version = true) ∧
    ((host.prerelease_url = none ∨ host.prerelease_version_url = none) →
      info.prerelease = none) := by
  rcases updateStandalone_cases env existing host info h with
    ⟨rel, prerelease, prereleaseUrl, prereleaseVersionUrl, hpu, hpvu, _, hpre, hgt, hinfo⟩ |
    ⟨release, _, hinfo⟩
  · subst hinfo
    constructor
    · intro pre hp
      simp only at hp
      cases hp
      exact ⟨prereleaseUrl, prereleaseVersionUrl, rel, hpu, hpvu, rfl, hpre, hgt⟩
    · intro hnone
      rcases hnone with hn | hn
      · rw [hn] at hpu; cases hpu
      · rw [hn] at hpvu; cases hpvu
  · subst hinfo
    constructor
    · intro pre hp
      exact absurd hp (by simp)
    · intro _
      rfl

/-- Witness for C9: with the prerelease channel unconfigured, an existing
prerelease is discarded from the result. -/
theorem updateStandalone_prerelease_characterization_witness :
    ({ release := some stdRelA } : ReleaseInfo).prerelease = none :=
  (updateStandalone_prerelease_characterization stdEnv
      { release := some stdRelA, prerelease := some stdRelB }
      { url := "ur", version_url := "vr" }
      { release := some stdRelA } rfl).2 (Or.inl rfl)

/-- C6 (amended): in the hosted-API resolver, only the absence of a latest
stable release (a failed latest-release lookup, which is caught) leaves the
prerelease walk unaffected; an error thrown while resolving the found stable
release propagates and aborts the whole pass, so the prerelease channel is
not resolved in that case. -/
theorem updateFromGithub_channel_dependence
    (env : Env) (existing : Option ReleaseInfo) (host : GithubHost)
    (releases : List GithubRelease)
    (hlist : env.listReleases (parseRepository host.url) = .ok releases) :
    (∀ e, env.getLatestRelease (parseRepository host.url) = .error e →
      updateFromGithub env existing host =
        goReleases env (existing.bind (fun i => i.prerelease)) none none
          (parseRepository host.url) releases) ∧
    (∀ e2, resolveStable env (existing.bind (fun i => i.release))
        (latestOpt env (parseRepository host.url)) (parseRepository host.url) = .error e2 →
      updateFromGithub env existing host = .error e2) := by
  constructor
  · intro e hlat
    have hl : latestOpt env (parseRepository host.url) = none := by
      simp [latestOpt, hlat]
    have heq := updateFromGithub_eq env existing host releases none hlist (by rw [hl]; rfl)
    rw [heq, hl]
    rfl
  · intro e2 hstable
    simp only [updateFromGithub, hlist, hstable]

/-- The latest stable entry for the C6 counterexample: its only asset is a
text file, so stable resolution throws after skipping every asset. -/
def c6LatestEntry : GithubRelease :=
  { id := 1, prerelease := false, draft := false,
    assets := [{ id := 101, name := "notes.txt", browser_download_url := "t" }] }

/-- Environment for the C6 counterexample: a resolvable prerelease entry is
listed before the latest stable entry, whose own resolution fails. -/
def c6Env : Env :=
  { fetch := fun _ => .error "unused"
    sha256 := fun _ => "h"
    parseDll := fun _ => .error "unused"
    unzip := fun _ => .error "unused"
    checkDllExports := fun _ => false
    listReleases := fun _ => .ok [preEntry, c6LatestEntry]
    getLatestRelease := fun _ => .ok c6LatestEntry
    getReleaseAsset := fun _ _ => .ok [0]
    }

/-- The same environment with the latest-release lookup failing instead. -/
def c6EnvNoLatest : Env :=
  { c6Env with getLatestRelease := fun _ => .error "nope" }

/-- C6 counterexample: a failure while resolving the stable channel does
prevent the prerelease channel from being resolved — with the stable entry
present but unresolvable, the whole pass fails, although the very same
listing resolves its prerelease fine when the stable lookup is absent. -/
theorem updateFromGithub_stable_failure_blocks_prerelease_cex :
    updateFromGithub c6Env (some { release := none, prerelease := some p5 }) { url := "o/r" } =
      .error "no valid release asset found" ∧
    updateFromGithub c6EnvNoLatest (some { release := none, prerelease := some p5 })
        { url := "o/r" } =
      .ok { release := none, prerelease := some p5 } :=
  ⟨rfl, rfl⟩

/-- Witness for C6 (amended): with the latest-release lookup failing, the
pass reduces to the prerelease walk with no stable release. -/
theorem updateFromGithub_channel_dependence_witness :
    updateFromGithub c6EnvNoLatest (some { release := none, prerelease := some p5 })
        { url := "o/r" } =
      goReleases c6EnvNoLatest (some p5) none none (parseRepository "o/r")
        [preEntry, c6LatestEntry] :=
  (updateFromGithub_channel_dependence c6EnvNoLatest
      (some { release := none, prerelease := some p5 }) { url := "o/r" }
      [preEntry, c6LatestEntry] rfl).1 "nope" rfl

/-- C10: a failure of the hosted-API loader update is non-fatal — updateLoader
totalizes it — and on failure the emitted manifest's loader field equals the
prior catalog's loader unchanged, or the empty ReleaseInfo when there is no
prior catalog. -/
theorem updateLoader_failure_keeps_existing
    (env : Env) (existingLoader : Option ReleaseInfo) (loaderRepo : String) (e : String)
    (addons : List Addon)
    (h : updateFromGithub env existingLoader { url := loaderRepo } = .error e) :
    ((buildManifest addons (updateLoader env existingLoader (some loaderRepo))).data.loader =
      existingLoader.getD {}) ∧
    (existingLoader = none →
      (buildManifest addons (updateLoader env existingLoader (some loaderRepo))).data.loader =
        ({} : ReleaseInfo)) := by
  have hfield : (buildManifest addons (updateLoader env existingLoader (some loaderRepo))).data.loader =
      updateLoader env existingLoader (some loaderRepo) := rfl
  constructor
  · rw [hfield]
    simp [updateLoader, h]
  · intro hnone
    subst hnone
    rw [hfield]
    simp [updateLoader, h]

/-- Witness for C10: a failing listReleases call leaves the prior loader in
the built manifest. -/
theorem updateLoader_failure_keeps_existing_witness :
    (buildManifest [] (updateLoader c2Env (some { release := some c2Old })
        (some "o/r"))).data.loader =
      (some ({ release := some c2Old } : ReleaseInfo)).getD {} :=
  (updateLoader_failure_keeps_existing c2Env (some { release := some c2Old })
      "o/r" "unused" [] rfl).1

/-- updateFirst changes only carried-over fields, never package ids. -/
theorem updateFirst_map_id (existingAddon : Addon) :
    ∀ addons : List Addon,
      (updateFirst addons existingAddon).map (fun a => a.package.id) =
        addons.map (fun a => a.package.id) := by
  intro addons
  induction addons with
  | nil => rfl
  | cons a rest ih =>
    simp only [updateFirst]
    split
    · simp
    · simp only [List.map_cons]
      rw [ih]

/-- updateFirst preserves the id-membership test used by the merge loop. -/
theorem updateFirst_any (existingAddon : Addon) (x : String) :
    ∀ addons : List Addon,
      (updateFirst addons existingAddon).any (fun a => a.package.id == x) =
        addons.any (fun a => a.package.id == x) := by
  intro addons
  induction addons with
  | nil => rfl
  | cons a rest ih =>
    simp only [updateFirst]
    split
    · simp
    · simp only [List.any_cons]
      rw [ih]

/-- The merge warnings are exactly one removal warning, in order, per
existing-manifest addon whose id is absent from the current definitions. -/
theorem mergeAddons_warnings :
    ∀ existing addons : List Addon,
      (mergeAddons addons existing).2 =
        (existing.filter
          (fun ea => !addons.any (fun a => a.package.id == ea.package.id))).map
          (fun ea => removedWarning ea.package.id) := by
  intro existing
  induction existing with
  | nil => intro addons; rfl
  | cons ea rest ih =>
    intro addons
    simp only [mergeAddons]
    by_cases hfound : addons.any (fun a => a.package.id == ea.package.id) = true
    · rw [if_pos hfound, ih (updateFirst addons ea)]
      have hfilt : rest.filter
            (fun x => !(updateFirst addons ea).any (fun a => a.package.id == x.package.id)) =
          rest.filter (fun x => !addons.any (fun a => a.package.id == x.package.id)) := by
        apply List.filter_congr
        intro x _
        rw [updateFirst_any]
      rw [hfilt, List.filter_cons]
      simp [hfound]
    · rw [if_neg hfound]
      have hfalse : (addons.any fun a => a.package.id == ea.package.id) = false := by
        revert hfound
        cases addons.any fun a => a.package.id == ea.package.id <;> simp
      have hrec : (let result := mergeAddons addons rest
          (result.1, removedWarning ea.package.id :: result.2)).2 =
          removedWarning ea.package.id :: (mergeAddons addons rest).2 := rfl
      rw [hrec, ih addons, List.filter_cons, hfalse]
      simp

/-- Merging never adds or removes addon identities: the merged list carries
exactly the current definitions' ids in order. -/
theorem mergeAddons_map_id :
    ∀ existing addons : List Addon,
      (mergeAddons addons existing).1.map (fun a => a.package.id) =
        addons.map (fun a => a.package.id) := by
  intro existing
  induction existing with
  | nil => intro addons; rfl
  | cons ea rest ih =>
    intro addons
    simp only [mergeAddons]
    by_cases hfound : addons.any (fun a => a.package.id == ea.package.id) = true
    · rw [if_pos hfound, ih (updateFirst addons ea), updateFirst_map_id]
    · rw [if_neg hfound]
      exact ih addons

/-- Membership in updateFirst is preserved for addons with a different id. -/
theorem mem_updateFirst_of_ne (a existingAddon : Addon) :
    ∀ addons : List Addon, a ∈ addons → a.package.id ≠ existingAddon.package.id →
      a ∈ updateFirst addons existingAddon := by
  intro addons
  induction addons with
  | nil => intro h _; cases h
  | cons b rest ih =>
    intro hmem hne
    simp only [updateFirst]
    split
    · rename_i hb
      rcases List.mem_cons.mp hmem with rfl | hmem2
      · exact absurd (by simpa using hb) hne
      · exact List.mem_cons_of_mem _ hmem2
    · rcases List.mem_cons.mp hmem with rfl | hmem2
      · exact List.mem_cons_self _ _
      · exact List.mem_cons_of_mem _ (ih hmem2 hne)

/-- An addon whose id occurs in no existing-manifest entry survives the merge
untouched. -/
theorem mem_mergeAddons_of_id_not_existing (a : Addon) :
    ∀ existing addons : List Addon, a ∈ addons →
      (∀ ea ∈ existing, a.package.id ≠ ea.package.id) →
      a ∈ (mergeAddons addons existing).1 := by
  intro existing
  induction existing with
  | nil => intro addons h _; exact h
  | cons ea rest ih =>
    intro addons hmem hne
    simp only [mergeAddons]
    by_cases hfound : addons.any (fun x => x.package.id == ea.package.id) = true
    · rw [if_pos hfound]
      exact ih _ (mem_updateFirst_of_ne a ea addons hmem (hne ea (by simp)))
        (fun x hx => hne x (by simp [hx]))
    · rw [if_neg hfound]
      exact ih _ hmem (fun x hx => hne x (by simp [hx]))

/-- When the membership test succeeds, updateFirst contains an entry with the
existing addon's id carrying over its release, prerelease and name set. -/
theorem updateFirst_mem_updated (existingAddon : Addon) :
    ∀ addons : List Addon,
      addons.any (fun a => a.package.id == existingAddon.package.id) = true →
      ∃ a ∈ updateFirst addons existingAddon,
        a.package.id = existingAddon.package.id ∧
        a.release = existingAddon.release ∧
        a.prerelease = existingAddon.prerelease ∧
        a.addon_names = existingAddon.addon_names := by
  intro addons
  induction addons with
  | nil => intro h; simp at h
  | cons b rest ih =>
    intro h
    simp only [updateFirst]
    split
    · rename_i hb
      refine ⟨_, List.mem_cons_self _ _, ?_, rfl, rfl, rfl⟩
      simpa using hb
    · rename_i hb
      have h2 : rest.any (fun a => a.package.id == existingAddon.package.id) = true := by
        simp only [List.any_cons] at h
        rcases Bool.or_eq_true_iff.mp h with h3 | h3
        · exact absurd h3 hb
        · exact h3
      obtain ⟨a, ha, hprops⟩ := ih h2
      exact ⟨a, List.mem_cons_of_mem _ ha, hprops⟩

/-- The carried-over part of the merge: under duplicate-free existing ids,
every existing addon whose id is still defined has its release, prerelease
and name set present unchanged on an entry of the merged list. -/
theorem mergeAddons_carry_over :
    ∀ existing addons : List Addon,
      (existing.map (fun a => a.package.id)).Nodup →
      ∀ ea ∈ existing,
        addons.any (fun a => a.package.id == ea.package.id) = true →
        ∃ a ∈ (mergeAddons addons existing).1,
          a.package.id = ea.package.id ∧
          a.release = ea.release ∧
          a.prerelease = ea.prerelease ∧
          a.addon_names = ea.addon_names := by
  intro existing
  induction existing with
  | nil => intro addons _ ea hmem; cases hmem
  | cons e rest ih =>
    intro addons hnodup ea hmem hany
    have hnodup2 : (rest.map (fun a => a.package.id)).Nodup :=
      (List.nodup_cons.mp (by simpa using hnodup)).2
    simp only [mergeAddons]
    rcases List.mem_cons.mp hmem with rfl | hmem2
    · rw [if_pos hany]
      obtain ⟨a, ha, hid, h1, h2, h3⟩ := updateFirst_mem_updated ea addons hany
      have hne : ∀ x ∈ rest, a.package.id ≠ x.package.id := by
        intro x hx hcontra
        have hnotin : ea.package.id ∉ rest.map (fun y => y.package.id) :=
          (List.nodup_cons.mp (by simpa using hnodup)).1
        apply hnotin
        rw [← hid, hcontra]
        exact List.mem_map_of_mem _ hx
      exact ⟨a, mem_mergeAddons_of_id_not_existing a rest _ ha hne, hid, h1, h2, h3⟩
    · by_cases hfound : addons.any (fun x => x.package.id == e.package.id) = true
      · rw [if_pos hfound]
        have hany2 : (updateFirst addons e).any
            (fun a => a.package.id == ea.package.id) = true := by
          rw [updateFirst_any]
          exact hany
        exact ih (updateFirst addons e) hnodup2 ea hmem2 hany2
      · rw [if_neg hfound]
        exact ih addons hnodup2 ea hmem2 hany

/-- C7: every addon identity present in the prior catalog but absent from the
current definitions produces exactly one removal warning and is excluded from
the merged catalog (whose identities are exactly the current definitions');
every identity present in both has release, prerelease and accumulated name
set carried over unchanged before the per-addon update runs. -/
theorem mergeAddons_spec (addons existing : List Addon) :
    ((mergeAddons addons existing).2 =
      (existing.filter
        (fun ea => !addons.any (fun a => a.package.id == ea.package.id))).map
        (fun ea => removedWarning ea.package.id)) ∧
    ((mergeAddons addons existing).1.map (fun a => a.package.id) =
      addons.map (fun a => a.package.id)) ∧
    ((existing.map (fun a => a.package.id)).Nodup →
      ∀ ea ∈ existing,
        addons.any (fun a => a.package.id == ea.package.id) = true →
        ∃ a ∈ (mergeAddons addons existing).1,
          a.package.id = ea.package.id ∧
          a.release = ea.release ∧
          a.prerelease = ea.prerelease ∧
          a.addon_names = ea.addon_names) :=
  ⟨mergeAddons_warnings existing addons, mergeAddons_map_id existing addons,
    mergeAddons_carry_over existing addons⟩

/-- Host value for the C7 witness addons. -/
def wHost : Host := Host.github { url := "o/r" }

/-- Current addon definition with id a. -/
def wA : Addon := { package := { id := "a", name := "A" }, host := wHost }

/-- Current addon definition with id b. -/
def wB : Addon := { package := { id := "b", name := "B" }, host := wHost }

/-- Prior-catalog entry with id a carrying a recorded release. -/
def wA2 : Addon :=
  { package := { id := "a", name := "A" }, host := wHost,
    release := some p5, addon_names := some ["A"] }

/-- Prior-catalog entry with id c, which is no longer defined. -/
def wC : Addon := { package := { id := "c", name := "C" }, host := wHost }

/-- Witness for C7: the removed id c yields exactly its one warning, and the
persisting id a carries its recorded fields over. -/
theorem mergeAddons_spec_witness :
    ((mergeAddons [wA, wB] [wA2, wC]).2 = [removedWarning "c"]) ∧
    ∃ a ∈ (mergeAddons [wA, wB] [wA2, wC]).1,
      a.package.id = wA2.package.id ∧
      a.release = wA2.release ∧
      a.prerelease = wA2.prerelease ∧
      a.addon_names = wA2.addon_names :=
  ⟨by
    rw [(mergeAddons_spec [wA, wB] [wA2, wC]).1]
    rfl,
   (mergeAddons_spec [wA, wB] [wA2, wC]).2.2 (by decide) wA2 (by decide) (by decide)⟩

end GenManifest
